import Mathlib

/-!
A shallow embedding, in Lean 4, of the layout / universe model of
`pelita` (`src/pelita/universe.py`), together with proofs about it.

Python strings are embedded as `List Char` (iterating over a Python
string yields its characters); the membership tests of `check_layout`,
which mix one-character strings with the decimal bot-id strings, are
embedded over `String` via `charStr`.  Python `int` values that can be
negative (`str.find` returns `-1`) are embedded as `Int`.  Fallible
operations return `Except String`.
-/

namespace Pelita

/-! ## Characters and moves (universe.py lines 1-17) -/

def wall : Char := '#'

def food : Char := '.'

def harvester : Char := 'c'

def destroyer : Char := 'o'

def free : Char := ' '

def layout_chars : List Char := [wall, food, harvester, destroyer, free]

def north : String := "NORTH"

def south : String := "SOUTH"

def west : String := "WEST"

def east : String := "EAST"

def stop : String := "STOP"

def move_ids : List String := [north, south, east, west, stop]

/-- Embedding of `new_positions` (universe.py lines 19-38): the dict mapping each move
to the position it leads to, embedded as an association list. -/

def new_positions (current : Int × Int) : List (String × (Int × Int)) :=
  [ (north, (current.1 - 1, current.2)),
    (south, (current.1 + 1, current.2)),
    (west, (current.1, current.2 - 1)),
    (east, (current.1, current.2 + 1)),
    (stop, (current.1, current.2)) ]

/-! ## Layout checking (universe.py lines 43-88) -/

/-- The one-character Python string holding just `c`. -/

def charStr (c : Char) : String := String.mk [c]

/-- Embedding of `[str(i) for i in range(number_bots)]`. -/

def bot_ids (number_bots : Nat) : List String :=
  (List.range number_bots).map Nat.repr

/-- Embedding of `legal = layout_chars + bot_ids + ['\n']` (universe.py line 65):
a list of Python strings (the layout characters are one-character
strings there). -/

def legal_strings (number_bots : Nat) : List String :=
  layout_chars.map charStr ++ bot_ids number_bots ++ [charStr '\n']

/-- The character loop of `check_layout` (universe.py lines 66-75):
scans the layout, raising on an illegal character or on a bot id seen
twice, and accumulates the bot ids in order of appearance. -/

def scanBots (botIds legal : List String) :
    List Char → List String → Except String (List String)
  | [], existing => .ok existing
  | c :: rest, existing =>
    if charStr c ∈ legal then
      if charStr c ∈ botIds then
        if charStr c ∈ existing then
          .error ("Bot-ID: " ++ charStr c ++ " was specified twice")
        else
          scanBots botIds legal rest (existing ++ [charStr c])
      else
        scanBots botIds legal rest existing
    else
      .error ("Char: " ++ charStr c ++ " is not a legal layout character")

/-- Embedding of `str.split('\n')` on a character list: Python's `split` on the empty
string yields `['']`, and every separator opens a new (possibly empty)
segment. -/

def splitLines : List Char → List (List Char)
  | [] => [[]]
  | c :: rest =>
    match splitLines rest with
    | [] => [[c]]
    | l :: ls => if c = '\n' then [] :: l :: ls else (c :: l) :: ls

/-- The rectangularity loop of `check_layout` (universe.py lines 82-88):
every line's length is compared with the first line's. -/

def checkRect (w : Nat) : List (List Char) → Except String Unit
  | [] => .ok ()
  | l :: rest =>
    if l.length ≠ w then .error "The layout must be rectangular"
    else checkRect w rest

/-- Embedding of `check_layout(layout_str, number_bots)` (universe.py lines 43-88). -/

def check_layout (layout_str : List Char) (number_bots : Nat) :
    Except String Unit := do
  let existing ←
    scanBots (bot_ids number_bots) (legal_strings number_bots) layout_str []
  if bot_ids number_bots ≠ existing then
    .error "Layout is invalid: some bot IDs were missing"
  else
    checkRect (splitLines layout_str).headI.length (splitLines layout_str)

/-! ## Layout normalisation and shape (universe.py lines 90-120) -/

/-- The characters Python's `str.strip()` removes. -/

def pyWhitespace : List Char := [' ', '\t', '\n', '\x0b', '\x0c', '\r']

/-- Python `line.strip()`: drop leading and trailing whitespace. -/

def pyStrip (l : List Char) : List Char :=
  ((l.dropWhile (fun c => pyWhitespace.contains c)).reverse.dropWhile
    (fun c => pyWhitespace.contains c)).reverse

/-- Embedding of `strip_layout` (universe.py lines 90-104):
`'\n'.join([line.strip() for line in layout_str.split('\n')])`. -/

def strip_layout (layout_str : List Char) : List Char :=
  List.intercalate ['\n'] ((splitLines layout_str).map pyStrip)

/-- Python `str.find(c)`: index of the first occurrence, `-1` if absent. -/

def strFind : List Char → Char → Int
  | [], _ => -1
  | a :: rest, c =>
    if a = c then 0
    else if strFind rest c = -1 then -1 else strFind rest c + 1

/-- Embedding of `layout_shape` (universe.py lines 106-120):
`(len(layout_str.split('\n')), layout_str.find('\n'))` — note that for a
layout without a newline the second component is `-1`. -/

def layout_shape (layout_str : List Char) : Nat × Int :=
  ((splitLines layout_str).length, strFind layout_str '\n')

/-- Embedding of `convert_to_grid` (universe.py lines 214-226):
`[[c for c in l.strip()] for l in layout_str.split('\n')]`. -/

def convert_to_grid (layout_str : List Char) : List (List Char) :=
  (splitLines layout_str).map pyStrip

/-! ## Bot and food extraction (universe.py lines 228-279)

Python mutates `layout_grid` in place while scanning it in row-major
order; the embedding threads the grid explicitly through a fold over the
same row-major index sequence and returns the extracted data together
with the mutated grid. -/

/-- One row of the scan order: `((h,0), ..., (h,width-1))`. -/

def rowPairs (width : Int) (h : Nat) : List (Nat × Nat) :=
  (List.range width.toNat).map fun w => (h, w)

/-- Embedding of `((h,w) for h in range(height) for w in range(width))`, where the
width comes from `layout_shape` and can be `-1` (Python's `range` of a
negative number is empty). -/

def indexPairs (height : Nat) (width : Int) : List (Nat × Nat) :=
  (List.range height).flatMap (rowPairs width)

/-- Reading `layout_grid[h][w]` on a grid known to be in bounds. -/

def gridGet (grid : List (List Char)) (h w : Nat) : Char :=
  (grid.getD h []).getD w free

/-- Write `v` at cell `(h, w)` of the grid. -/

def gridSet (grid : List (List Char)) (h w : Nat) (v : Char) :
    List (List Char) :=
  grid.set h ((grid.getD h []).set w v)

/-- Python `int(c)` for the one-digit bot-id characters. -/

def charVal (c : Char) : Nat := c.toNat - 48

/-- The body of the scan loop of `initial_positions` (universe.py lines
250-253): if the current cell holds a bot id, record the position under
that id and free the cell. -/

def ipStep (botIds : List String)
    (acc : List (Nat × Nat) × List (List Char)) (p : Nat × Nat) :
    List (Nat × Nat) × List (List Char) :=
  if charStr (gridGet acc.2 p.1 p.2) ∈ botIds then
    (acc.1.set (charVal (gridGet acc.2 p.1 p.2)) p,
     gridSet acc.2 p.1 p.2 free)
  else acc

/-- Embedding of `initial_positions(layout_grid, shape, number_bots)` (universe.py
lines 228-254).  `shape` is the pair the caller passes — in
`Universe.__init__` that is `(number of lines, find('\n'))`.  Returns the
start positions together with the mutated grid. -/

def initial_positions (layout_grid : List (List Char))
    (shape : Nat × Int) (number_bots : Nat) :
    List (Nat × Nat) × List (List Char) :=
  (indexPairs shape.1 shape.2).foldl (ipStep (bot_ids number_bots))
    (List.replicate number_bots ((0 : Nat), (0 : Nat)), layout_grid)

/-- Write `v` at cell `(h, w)` of a boolean grid. -/

def boolSet (grid : List (List Bool)) (h w : Nat) (v : Bool) :
    List (List Bool) :=
  grid.set h ((grid.getD h []).set w v)

/-- Reading `food_grid[h][w]`. -/

def boolGet (grid : List (List Bool)) (h w : Nat) : Bool :=
  (grid.getD h []).getD w false

/-- The body of the scan loop of `extract_food` (universe.py lines
275-278): if the current cell holds food, mark the food grid and free
the cell. -/

def efStep (acc : List (List Bool) × List (List Char)) (p : Nat × Nat) :
    List (List Bool) × List (List Char) :=
  if gridGet acc.2 p.1 p.2 = food then
    (boolSet acc.1 p.1 p.2 true, gridSet acc.2 p.1 p.2 free)
  else acc

/-- Embedding of `extract_food(layout_grid, shape)` (universe.py lines 256-279).
Returns the food grid together with the mutated layout grid. -/

def extract_food (layout_grid : List (List Char)) (shape : Nat × Int) :
    List (List Bool) × List (List Char) :=
  (indexPairs shape.1 shape.2).foldl efStep
    (List.replicate shape.1 (List.replicate shape.2.toNat false),
     layout_grid)

/-! ## Mesh (universe.py lines 122-212)

A matrix stored as a single flat row-major list.  Freshly constructed
cells hold Python `None`; the embedding stores `Option α` cells, `none`
standing for `None`.  Indices are Python integers, so they are embedded
as `Int` pairs. -/

structure Mesh (α : Type) where
  height : Nat
  width : Nat
  shape : Nat × Nat
  data : List (Option α)
  deriving Repr, DecidableEq

namespace Mesh

/-- Embedding of `Mesh.__init__(self, height, width)` (universe.py lines 175-179). -/

def init (α : Type) (height width : Nat) : Mesh α :=
  { height := height
    width := width
    shape := (height, width)
    data := List.replicate (width * height) none }

/-- Embedding of `Mesh._check_index(self, index)` (universe.py lines 181-189). -/

def checkIndex (m : Mesh α) (index : Int × Int) : Except String Unit :=
  if index.1 ≥ (m.height : Int) ∨ index.1 < 0 then
    .error "Mesh indexing error, requested row out of height"
  else if index.2 ≥ (m.width : Int) ∨ index.2 < 0 then
    .error "Mesh indexing error, requested column out of width"
  else
    .ok ()

/-- Embedding of `Mesh.__getitem__(self, index)` (universe.py lines 191-193):
`self._data[index[0] * self.width + index[1]]`. -/

def getItem (m : Mesh α) (index : Int × Int) : Except String (Option α) :=
  match m.checkIndex index with
  | .error e => .error e
  | .ok _ =>
    .ok (m.data.getD (index.1.toNat * m.width + index.2.toNat) none)

/-- Embedding of `Mesh.__setitem__(self, index, item)` (universe.py lines 195-197). -/

def setItem (m : Mesh α) (index : Int × Int) (item : α) :
    Except String (Mesh α) :=
  match m.checkIndex index with
  | .error e => .error e
  | .ok _ =>
    .ok { m with
          data := m.data.set (index.1.toNat * m.width + index.2.toNat)
                    (some item) }

end Mesh

/-! ## The Universe (universe.py lines 292-332) -/

structure Universe where
  initial_layout : List Char
  number_bots : Nat
  width : Nat
  height : Int
  shape : Nat × Int
  layout : List (List Char)
  initial_pos : List (Nat × Nat)
  bot_positions : List (Nat × Nat)
  food_positions : List (List Bool)
  deriving Repr, DecidableEq

/-- Embedding of `Universe.__init__(self, layout_str, number_bots)` (universe.py
lines 323-332), with the `LayoutEncodingException` surfaced as an
`Except.error`.  Note the assignment
`self.width, self.height = layout_shape(...)` pairs `width` with the
number of lines and `height` with the first-newline index, exactly as
the Python does. -/

def Universe.init (layout_str : List Char) (number_bots : Nat) :
    Except String Universe :=
  let initial_layout := strip_layout layout_str
  match check_layout initial_layout number_bots with
  | .error e => .error e
  | .ok _ =>
    let width := (layout_shape initial_layout).1
    let height := (layout_shape initial_layout).2
    let shape := (width, height)
    let grid0 := convert_to_grid initial_layout
    let ip := initial_positions grid0 shape number_bots
    let ef := extract_food ip.2 shape
    .ok { initial_layout := initial_layout
          number_bots := number_bots
          width := width
          height := height
          shape := shape
          layout := ef.2
          initial_pos := ip.1
          bot_positions := ip.1
          food_positions := ef.1 }

/-- The out-of-bounds condition of `Mesh._check_index`. -/

def meshOutOfBounds (m : Mesh α) (r c : Int) : Prop :=
  r < 0 ∨ (m.height : Int) ≤ r ∨ c < 0 ∨ (m.width : Int) ≤ c

instance (m : Mesh α) (r c : Int) : Decidable (meshOutOfBounds m r c) := by
  unfold meshOutOfBounds; infer_instance

/-- The Mesh obtained from `Mesh.init Nat 2 3` by writing `5` at `(1, 2)`. -/

def meshW : Mesh Nat := ⟨2, 3, (2, 3), [none, none, none, none, none, some 5]⟩

/-- The sequence of bot markers of a layout, in text order, as Python
strings. -/

def markerSeq (l : List Char) (n : Nat) : List String :=
  (l.filter fun c => decide (charStr c ∈ bot_ids n)).map charStr

/-- The layout of the section-8 scenario (spec.md line 110). -/

def demoLayout : List Char :=
  ("##################\n#0#.  .  # .     #\n#2#####    ####1 #\n" ++
   "#     . #  .  #3##\n##################").toList

/-- The grids the bot scan passes through on the section-8 layout:
after freeing bot 0's cell, bots 2 and 1's cells, and bot 3's cell. -/

def demoGrid1 : List (List Char) :=
  gridSet (convert_to_grid demoLayout) 1 1 free

def demoGrid2 : List (List Char) :=
  gridSet (gridSet demoGrid1 2 1 free) 2 15 free

def demoGrid3 : List (List Char) := gridSet demoGrid2 3 15 free

/-- The Universe built from the two-row layout `"#0#\n#.#"` with one
bot. -/

def uC3 : Universe :=
  { initial_layout := "#0#\n#.#".toList
    number_bots := 1
    width := 2
    height := 3
    shape := (2, 3)
    layout := [['#', ' ', '#'], ['#', ' ', '#']]
    initial_pos := [(0, 1)]
    bot_positions := [(0, 1)]
    food_positions := [[false, false, false], [false, true, false]] }

/-! ## The Game Master round scheduler (claim C8)

The repository files under `src/` do not contain
`pelita/game_master.py`; only its callers are present
(`src/test/test_player.py` and `src/demo/demo_game.py` import
`GameMaster`).  The scheduler is therefore modelled from the spec
(section 4.5, with the move resolver of 4.3, the food-region split of
4.2 and the seed derivation exercised by `test_rnd` in
`src/test/test_player.py`), on top of the `Universe` embedded from
`src/pelita/universe.py`. -/

/-- Modelled from the spec: one snapshot of the Game Master's
observable state after a bot's move — bot positions and both teams'
scores (spec section 4.5: observers are notified after each bot's
move). -/

structure Snapshot where
  bot_positions : List (Nat × Nat)
  scores : Nat × Nat
  round_index : Nat
  deriving Repr, DecidableEq

/-- Modelled from the spec: the mutable match state the scheduler
threads through the rounds. -/

structure ModelState where
  positions : List (Nat × Nat)
  food : List (List Bool)
  score0 : Nat
  score1 : Nat
  deriving Repr, DecidableEq

/-- Modelled from the spec: an agent's behaviour is a deterministic
function of its inputs — the round index, its permitted view of the
bot positions, and its own derived random seed (spec section 4.4). -/

def Agent : Type := Nat → List (Nat × Nat) → Nat → String

/-- Modelled from the spec: each agent receives its own seeded random
stream derived deterministically from the match seed and the agent's
index (spec section 4.4; `test_rnd` checks `seed + index`). -/

def derive_agent_seed (match_seed : Nat) (agent_index : Nat) : Nat :=
  match_seed + agent_index

/-- Modelled from the spec: bots alternate ownership between two teams
by id parity (spec section 3). -/

def botTeam (i : Nat) : Nat := i % 2

/-- Modelled from the spec: the move resolver of section 4.3 — an
illegal or unknown direction forfeits the move (STOP per section 4.5);
a legal destination is in-bounds and not a wall; food on the enemy's
half (the vertical midline split of section 4.2) is consumed for one
point. -/

def resolve_move (grid : List (List Char)) (widthCols : Nat)
    (st : ModelState) (i : Nat) (mv : String) : ModelState :=
  let pos := st.positions.getD i (0, 0)
  let newPos :=
    match (new_positions ((pos.1 : Int), (pos.2 : Int))).lookup mv with
    | none => pos
    | some q =>
      if 0 ≤ q.1 ∧ 0 ≤ q.2 ∧ q.1.toNat < grid.length ∧
          q.2.toNat < widthCols ∧
          gridGet grid q.1.toNat q.2.toNat ≠ wall then
        (q.1.toNat, q.2.toNat)
      else pos
  let enemyRegion :=
    if botTeam i = 0 then widthCols / 2 ≤ newPos.2
    else newPos.2 < widthCols / 2
  if boolGet st.food newPos.1 newPos.2 = true ∧ enemyRegion then
    { positions := st.positions.set i newPos
      food := boolSet st.food newPos.1 newPos.2 false
      score0 := if botTeam i = 0 then st.score0 + 1 else st.score0
      score1 := if botTeam i = 1 then st.score1 + 1 else st.score1 }
  else
    { positions := st.positions.set i newPos
      food := st.food
      score0 := st.score0
      score1 := st.score1 }

/-- Modelled from the spec: one round asks each bot, in ascending id
order, for a move and applies the resolver, emitting a snapshot after
each bot's move (spec section 4.5, `play_round`). -/

def playBots (grid : List (List Char)) (widthCols : Nat)
    (agents : Nat → Agent) (seed r : Nat) :
    List Nat → ModelState → ModelState × List Snapshot
  | [], st => (st, [])
  | i :: rest, st =>
    let mv := agents i r st.positions (derive_agent_seed seed i)
    let st2 := resolve_move grid widthCols st i mv
    let res := playBots grid widthCols agents seed r rest st2
    (res.1,
      { bot_positions := st2.positions
        scores := (st2.score0, st2.score1)
        round_index := r } :: res.2)

/-- Modelled from the spec: the round loop of `play` (spec section
4.5) — repeat `play_round` until the round budget is exhausted. -/

def playRounds (grid : List (List Char)) (widthCols nb : Nat)
    (agents : Nat → Agent) (seed : Nat) :
    Nat → Nat → ModelState → ModelState × List Snapshot
  | 0, _, st => (st, [])
  | n + 1, r, st =>
    let thisRound := playBots grid widthCols agents seed r
      (List.range nb) st
    let rest := playRounds grid widthCols nb agents seed n (r + 1)
      thisRound.1
    (rest.1, thisRound.2 ++ rest.2)

/-- Modelled from the spec: `GameMaster.play` (spec section 4.5) —
build the Universe from the layout, then run `game_time` rounds,
producing the sequence of snapshots the observers see. -/

def play (layout_str : List Char) (number_bots game_time seed : Nat)
    (agents : Nat → Agent) : List Snapshot :=
  match Universe.init layout_str number_bots with
  | .error _ => []
  | .ok u =>
    (playRounds u.layout (splitLines u.initial_layout).headI.length
      number_bots agents seed game_time 0
      { positions := u.initial_pos
        food := u.food_positions
        score0 := 0
        score1 := 0 }).2

/-! ## Theorems -/

/-! ## Theorems about the moves (claim C4) -/
/-- C4: for every position `p`, `new_positions p` has exactly five
entries; it maps STOP to `p` itself, NORTH to the cell with first
coordinate one less, SOUTH to first coordinate one more, WEST to second
coordinate one less and EAST to second coordinate one more. -/
theorem new_positions_spec (p : Int × Int) :
    (new_positions p).length = 5 ∧
    (new_positions p).lookup stop = some p ∧
    (new_positions p).lookup north = some (p.1 - 1, p.2) ∧
    (new_positions p).lookup south = some (p.1 + 1, p.2) ∧
    (new_positions p).lookup west = some (p.1, p.2 - 1) ∧
    (new_positions p).lookup east = some (p.1, p.2 + 1) :=
  ⟨rfl, rfl, rfl, rfl, rfl, rfl⟩

/-! ## Theorems about the Mesh (claims C9, C10) -/
theorem checkIndex_error_iff (m : Mesh α) (r c : Int) :
    (∃ e, m.checkIndex (r, c) = .error e) ↔ meshOutOfBounds m r c := by
  unfold Mesh.checkIndex meshOutOfBounds
  by_cases h1 : (((r, c).1 : Int) ≥ (m.height : Int) ∨ ((r, c).1 : Int) < 0)
  · rw [if_pos h1]
    simp only [Except.error.injEq, exists_eq']
    exact iff_of_true trivial (by rcases h1 with h | h <;> omega)
  · rw [if_neg h1]
    by_cases h2 : (((r, c).2 : Int) ≥ (m.width : Int) ∨ ((r, c).2 : Int) < 0)
    · rw [if_pos h2]
      simp only [Except.error.injEq, exists_eq']
      exact iff_of_true trivial (by rcases h2 with h | h <;> omega)
    · rw [if_neg h2]
      push_neg at h1 h2
      constructor
      · rintro ⟨e, he⟩
        exact absurd he (by simp)
      · intro h
        exfalso
        rcases h with h | h | h | h <;> omega

theorem checkIndex_ok (m : Mesh α) (r c : Int)
    (h : ¬ meshOutOfBounds m r c) : m.checkIndex (r, c) = .ok () := by
  unfold meshOutOfBounds at h
  push_neg at h
  obtain ⟨h1, h2, h3, h4⟩ := h
  unfold Mesh.checkIndex
  rw [if_neg (by push_neg; exact ⟨h2, h1⟩), if_neg (by push_neg; exact ⟨h4, h3⟩)]

/-- C9: `__getitem__` and `__setitem__` on a Mesh fail exactly when the
row is negative, at least the height, or the column is negative, at
least the width; on an in-bounds index they succeed, reading and
writing the flat row-major offset `r * width + c`. -/
theorem mesh_index_spec (α : Type) (v : α) (m : Mesh α) (r c : Int) :
    ((∃ e, m.getItem (r, c) = .error e) ↔
      (r < 0 ∨ (m.height : Int) ≤ r ∨ c < 0 ∨ (m.width : Int) ≤ c)) ∧
    ((∃ e, m.setItem (r, c) v = .error e) ↔
      (r < 0 ∨ (m.height : Int) ≤ r ∨ c < 0 ∨ (m.width : Int) ≤ c)) ∧
    (¬ (r < 0 ∨ (m.height : Int) ≤ r ∨ c < 0 ∨ (m.width : Int) ≤ c) →
      m.getItem (r, c) =
        .ok (m.data.getD (r.toNat * m.width + c.toNat) none) ∧
      m.setItem (r, c) v =
        .ok ⟨m.height, m.width, m.shape,
          m.data.set (r.toNat * m.width + c.toNat) (some v)⟩) := by
  have hoob : meshOutOfBounds m r c ↔
      (r < 0 ∨ (m.height : Int) ≤ r ∨ c < 0 ∨ (m.width : Int) ≤ c) :=
    Iff.rfl
  refine ⟨?_, ?_, ?_⟩
  · rw [← hoob, ← checkIndex_error_iff (m := m) (r := r) (c := c)]
    unfold Mesh.getItem
    cases hc : m.checkIndex (r, c) with
    | error e => simp
    | ok u => simp
  · rw [← hoob, ← checkIndex_error_iff (m := m) (r := r) (c := c)]
    unfold Mesh.setItem
    cases hc : m.checkIndex (r, c) with
    | error e => simp
    | ok u => simp
  · intro h
    rw [← hoob] at h
    have hok := checkIndex_ok (m := m) (r := r) (c := c) h
    unfold Mesh.getItem Mesh.setItem
    rw [hok]
    exact ⟨rfl, rfl⟩

/-- Distinct in-bounds cells have distinct row-major flat offsets. -/
theorem rowMajor_inj {w r1 c1 r2 c2 : Nat} (h1 : c1 < w) (h2 : c2 < w)
    (hne : (r1, c1) ≠ (r2, c2)) : r1 * w + c1 ≠ r2 * w + c2 := by
  have key : ∀ a b ca cb : Nat, ca < w → a < b →
      a * w + ca < b * w + cb := by
    intro a b ca cb hca hab
    calc a * w + ca < a * w + w := by omega
      _ = (a + 1) * w := by ring
      _ ≤ b * w := Nat.mul_le_mul_right w hab
      _ ≤ b * w + cb := Nat.le_add_right _ _
  intro he
  rcases Nat.lt_trichotomy r1 r2 with h | h | h
  · exact absurd he (Nat.ne_of_lt (key _ _ _ _ h1 h))
  · subst h
    exact hne (by have : c1 = c2 := by omega
                  rw [this])
  · exact absurd he.symm (Nat.ne_of_lt (key _ _ _ _ h2 h))

/-- C10: after an in-bounds `__setitem__`, reading the written index
yields the new value, every other in-bounds index is unchanged, and the
height, width and shape of the Mesh are unchanged. -/
theorem mesh_set_frame (α : Type) (m : Mesh α) (r c : Int) (v : α)
    (m' : Mesh α) (hlen : m.data.length = m.height * m.width)
    (hset : m.setItem (r, c) v = .ok m') :
    m'.getItem (r, c) = .ok (some v) ∧
    (∀ r' c' : Int, ¬ (r' < 0 ∨ (m.height : Int) ≤ r' ∨ c' < 0 ∨
        (m.width : Int) ≤ c') → (r', c') ≠ (r, c) →
      m'.getItem (r', c') = m.getItem (r', c')) ∧
    m'.height = m.height ∧ m'.width = m.width ∧ m'.shape = m.shape := by
  have hin : ¬ meshOutOfBounds m r c := by
    intro hout
    obtain ⟨e, he⟩ := (checkIndex_error_iff (m := m) (r := r) (c := c)).mpr hout
    unfold Mesh.setItem at hset
    rw [he] at hset
    exact absurd hset (by simp)
  have hok := checkIndex_ok (m := m) (r := r) (c := c) hin
  unfold Mesh.setItem at hset
  rw [hok] at hset
  have hm' : m' = ⟨m.height, m.width, m.shape,
      m.data.set (r.toNat * m.width + c.toNat) (some v)⟩ := by
    cases hset
    rfl
  subst hm'
  unfold meshOutOfBounds at hin
  push_neg at hin
  obtain ⟨hr0, hrh, hc0, hcw⟩ := hin
  have hrn : r.toNat < m.height := by omega
  have hcn : c.toNat < m.width := by omega
  have hoff : r.toNat * m.width + c.toNat < m.data.length := by
    rw [hlen]
    calc r.toNat * m.width + c.toNat
        < r.toNat * m.width + m.width := by omega
      _ = (r.toNat + 1) * m.width := by ring
      _ ≤ m.height * m.width := Nat.mul_le_mul_right m.width hrn
  refine ⟨?_, ?_, rfl, rfl, rfl⟩
  · unfold Mesh.getItem Mesh.checkIndex
    rw [if_neg (by push_neg; exact ⟨hrh, hr0⟩),
      if_neg (by push_neg; exact ⟨hcw, hc0⟩)]
    simp only [List.getD_eq_getElem?_getD]
    rw [List.getElem?_set_self (by simpa using hoff)]
    rfl
  · intro r' c' hin' hne
    push_neg at hin'
    obtain ⟨hr0', hrh', hc0', hcw'⟩ := hin'
    unfold Mesh.getItem Mesh.checkIndex
    rw [if_neg (by push_neg; exact ⟨hrh', hr0'⟩),
      if_neg (by push_neg; exact ⟨hcw', hc0'⟩)]
    show Except.ok ((m.data.set (r.toNat * m.width + c.toNat) (some v)).getD
        (r'.toNat * m.width + c'.toNat) none) =
      Except.ok (m.data.getD (r'.toNat * m.width + c'.toNat) none)
    refine congrArg Except.ok ?_
    rw [List.getD_eq_getElem?_getD, List.getD_eq_getElem?_getD,
      List.getElem?_set_ne]
    apply @rowMajor_inj m.width r.toNat c.toNat r'.toNat c'.toNat hcn
      (by omega)
    intro hpair
    apply hne
    have h1 : r.toNat = r'.toNat := congrArg Prod.fst hpair
    have h2 : c.toNat = c'.toNat := congrArg Prod.snd hpair
    have hr : r' = r := by omega
    have hc : c' = c := by omega
    rw [hr, hc]

/-- Witness for C10: the frame property at the concrete Mesh
`Mesh.init Nat 2 3` and index `(1, 2)`. -/
theorem mesh_set_frame_witness :
    ((Mesh.init Nat 2 3).setItem (1, 2) 5 = .ok meshW) ∧
    meshW.getItem (1, 2) = .ok (some 5) :=
  ⟨rfl, (mesh_set_frame Nat (Mesh.init Nat 2 3) 1 2 5 meshW rfl rfl).1⟩

/-! ## A complete characterisation of `check_layout` (claims C1, C5)

`check_layout` succeeds exactly when every character is legal (wall,
food, harvester, destroyer, free, newline or a bot-id character), the
sequence of bot-id characters read in text order is exactly
`str(0), ..., str(number_bots - 1)` — so each id occurs exactly once
AND in increasing order — and all lines have the first line's length. -/
theorem scanBots_ok (botIds legal : List String) (l : List Char) :
    ∀ existing : List String,
      (existing ++
        (l.filter fun c => decide (charStr c ∈ botIds)).map charStr).Nodup →
      (∀ c ∈ l, charStr c ∈ legal) →
      scanBots botIds legal l existing =
        .ok (existing ++
          (l.filter fun c => decide (charStr c ∈ botIds)).map charStr) := by
  induction l with
  | nil => intro existing _ _; simp [scanBots]
  | cons c rest ih =>
    intro existing hnd hleg
    unfold scanBots
    rw [if_pos (hleg c (List.mem_cons_self c rest))]
    by_cases hb : charStr c ∈ botIds
    · rw [if_pos hb]
      rw [List.filter_cons_of_pos (by simpa using hb)] at hnd ⊢
      rw [List.map_cons] at hnd ⊢
      have hsplit : existing ++ charStr c ::
          (List.map charStr (rest.filter fun c => decide (charStr c ∈ botIds))) =
          (existing ++ [charStr c]) ++
          (List.map charStr (rest.filter fun c => decide (charStr c ∈ botIds))) := by
        simp
      have hnotin : charStr c ∉ existing := by
        intro hmem
        have hdisj := List.disjoint_of_nodup_append hnd
        exact hdisj hmem (List.mem_cons_self _ _)
      rw [if_neg hnotin, hsplit]
      exact ih (existing ++ [charStr c]) (by rw [← hsplit]; exact hnd)
        (fun d hd => hleg d (List.mem_cons_of_mem c hd))
    · rw [if_neg hb]
      rw [List.filter_cons_of_neg (by simpa using hb)]
      exact ih existing
        (by rwa [List.filter_cons_of_neg (by simpa using hb)] at hnd)
        (fun d hd => hleg d (List.mem_cons_of_mem c hd))

theorem scanBots_res (botIds legal : List String) (l : List Char) :
    ∀ existing r,
      scanBots botIds legal l existing = .ok r →
      (∀ c ∈ l, charStr c ∈ legal) ∧
      r = existing ++
        (l.filter fun c => decide (charStr c ∈ botIds)).map charStr := by
  induction l with
  | nil =>
    intro existing r h
    refine ⟨by simp, ?_⟩
    unfold scanBots at h
    cases h
    simp
  | cons c rest ih =>
    intro existing r h
    unfold scanBots at h
    by_cases hleg : charStr c ∈ legal
    · rw [if_pos hleg] at h
      by_cases hb : charStr c ∈ botIds
      · rw [if_pos hb] at h
        by_cases hex : charStr c ∈ existing
        · rw [if_pos hex] at h
          exact absurd h (by simp)
        · rw [if_neg hex] at h
          obtain ⟨hleg', hr⟩ := ih (existing ++ [charStr c]) r h
          refine ⟨?_, ?_⟩
          · intro d hd
            rcases List.mem_cons.mp hd with hd | hd
            · rw [hd]; exact hleg
            · exact hleg' d hd
          · rw [hr, List.filter_cons_of_pos (by simpa using hb), List.map_cons]
            simp
      · rw [if_neg hb] at h
        obtain ⟨hleg', hr⟩ := ih existing r h
        refine ⟨?_, ?_⟩
        · intro d hd
          rcases List.mem_cons.mp hd with hd | hd
          · rw [hd]; exact hleg
          · exact hleg' d hd
        · rw [hr, List.filter_cons_of_neg (by simpa using hb)]
    · rw [if_neg hleg] at h
      exact absurd h (by simp)

theorem checkRect_ok_iff (w : Nat) (lines : List (List Char)) :
    checkRect w lines = .ok () ↔ ∀ l ∈ lines, l.length = w := by
  induction lines with
  | nil => simp [checkRect]
  | cons l rest ih =>
    unfold checkRect
    by_cases h : l.length ≠ w
    · rw [if_pos h]
      constructor
      · intro he; exact absurd he (by simp)
      · intro hall; exact absurd (hall l (List.mem_cons_self _ _)) h
    · rw [if_neg h]
      push_neg at h
      rw [ih]
      constructor
      · intro hall d hd
        rcases List.mem_cons.mp hd with hd | hd
        · rw [hd]; exact h
        · exact hall d hd
      · intro hall d hd
        exact hall d (List.mem_cons_of_mem l hd)

theorem charStr_length (c : Char) : (charStr c).length = 1 := rfl

/-- If the marker sequence of a layout equals `bot_ids n` then
`n ≤ 10`: the marker for id 10 is two characters long and can never be
produced by the character-by-character scan. -/
theorem markers_imp_le_ten (l : List Char) (n : Nat)
    (h : markerSeq l n = bot_ids n) : n ≤ 10 := by
  by_contra hn
  push_neg at hn
  have h10 : ("10" : String) ∈ bot_ids n :=
    List.mem_map.mpr ⟨10, List.mem_range.mpr hn, rfl⟩
  rw [← h] at h10
  obtain ⟨c, _, hcs⟩ := List.mem_map.mp h10
  have hlen : ("10" : String).length = 1 := by rw [← hcs]; rfl
  exact absurd hlen (by decide)

theorem bot_ids_nodup (n : Nat) (h : n ≤ 10) : (bot_ids n).Nodup := by
  interval_cases n <;> decide

/-- The function `check_layout` succeeds exactly when every character is legal, the
markers read in text order are `str(0), ..., str(n-1)`, and the layout
is rectangular. -/
theorem check_layout_ok_iff (l : List Char) (n : Nat) :
    check_layout l n = .ok () ↔
      ((∀ c ∈ l, charStr c ∈ legal_strings n) ∧
       markerSeq l n = bot_ids n ∧
       (∀ line ∈ splitLines l, line.length = (splitLines l).headI.length)) := by
  unfold check_layout
  constructor
  · intro h
    cases hscan : scanBots (bot_ids n) (legal_strings n) l [] with
    | error e =>
      rw [hscan] at h
      exact absurd h (by simp [Bind.bind, Except.bind])
    | ok ex =>
      rw [hscan] at h
      simp only [Bind.bind, Except.bind] at h
      obtain ⟨hleg, hex⟩ := scanBots_res _ _ _ _ _ hscan
      rw [List.nil_append] at hex
      by_cases hne : bot_ids n ≠ ex
      · rw [if_pos hne] at h
        exact absurd h (by simp)
      · push_neg at hne
        rw [if_neg (by rw [hne]; simp)] at h
        exact ⟨hleg, by rw [markerSeq, ← hex, hne],
          (checkRect_ok_iff _ _).mp h⟩
  · rintro ⟨hleg, hmark, hrect⟩
    have hle := markers_imp_le_ten l n hmark
    have hnd : (([] : List String) ++ markerSeq l n).Nodup := by
      rw [List.nil_append, hmark]
      exact bot_ids_nodup n hle
    have hscan := scanBots_ok (bot_ids n) (legal_strings n) l [] hnd hleg
    rw [List.nil_append] at hscan
    rw [markerSeq] at hmark
    rw [hmark] at hscan
    rw [hscan]
    simp only [Bind.bind, Except.bind]
    rw [if_neg (by simp)]
    exact (checkRect_ok_iff _ _).mpr hrect

/-- For `Except String Unit`, failing is the same as not succeeding. -/
theorem except_error_iff_not_ok (x : Except String Unit) :
    (∃ e, x = .error e) ↔ ¬ (x = .ok ()) := by
  cases x <;> simp

/-- C1 (amended): `check_layout` raises exactly when the layout holds a
character outside the legal set (wall `#`, food `.`, harvester `c`,
destroyer `o`, free ` `, newline, or a bot-id character), or the bot
markers read in text order are not exactly `0, ..., N-1` — which is
violated by a missing id, a duplicated id, or ids out of increasing
order — or some line's length differs from the first line's. -/
theorem check_layout_error_iff (l : List Char) (n : Nat) :
    (∃ e, check_layout l n = .error e) ↔
      ¬ ((∀ c ∈ l, charStr c ∈ legal_strings n) ∧
         markerSeq l n = bot_ids n ∧
         (∀ line ∈ splitLines l, line.length =
           (splitLines l).headI.length)) := by
  rw [except_error_iff_not_ok, check_layout_ok_iff]

/-- Counterexample for C1: the layout `"0c"` with one bot is accepted by
`check_layout` although `c` is not a wall, food, free, newline or bot
marker character. -/
theorem check_layout_c_cex :
    check_layout "0c".toList 1 = .ok () ∧
    ¬ ('c' = wall ∨ 'c' = food ∨ 'c' = free ∨ 'c' = '\n' ∨
       charStr 'c' ∈ bot_ids 1) :=
  ⟨by rfl, by decide⟩

/-- C5 (amended): for every even `N` with `2 ≤ N ≤ 10`, every layout
whose bot markers read in text order are exactly `0, ..., N-1` (each id
exactly once, in increasing order of first appearance), which is
rectangular and uses only legal characters, passes `check_layout`. -/
theorem check_layout_accepts (n : Nat) (l : List Char)
    (hn2 : 2 ≤ n) (heven : n % 2 = 0) (hn10 : n ≤ 10)
    (hleg : ∀ c ∈ l, charStr c ∈ legal_strings n)
    (hmark : markerSeq l n = bot_ids n)
    (hrect : ∀ line ∈ splitLines l, line.length =
      (splitLines l).headI.length) :
    check_layout l n = .ok () :=
  (check_layout_ok_iff l n).mpr ⟨hleg, hmark, hrect⟩

/-- Witness for C5 at `N = 2` and the layout `"#01#\n####"`. -/
theorem check_layout_accepts_witness :
    check_layout "#01#\n####".toList 2 = .ok () :=
  check_layout_accepts 2 "#01#\n####".toList (by decide) (by decide)
    (by decide) (by decide) (by decide) (by decide)

/-- Counterexample for C5: with two bots, the layout `"10"` holds every
marker exactly once, is rectangular and uses only legal characters, yet
`check_layout` rejects it (the markers appear out of increasing
order). -/
theorem check_layout_order_cex :
    ("10".toList.count '0' = 1 ∧ "10".toList.count '1' = 1) ∧
    (∀ c ∈ "10".toList, charStr c ∈ legal_strings 2) ∧
    (∀ line ∈ splitLines "10".toList, line.length =
      (splitLines "10".toList).headI.length) ∧
    check_layout "10".toList 2 =
      .error "Layout is invalid: some bot IDs were missing" :=
  ⟨⟨by decide, by decide⟩, by decide, by decide, by rfl⟩

/-! ## Concrete universes (claims C2, C6, C7) -/
set_option maxRecDepth 4000 in
/-- A one-line layout: `check_layout` accepts it (it is trivially
rectangular and holds each bot id once, in order), but
`layout_shape` returns `-1` for the width (`find('\n')` on a string
without a newline), so `initial_positions` scans nothing. -/
theorem universe_single_line_no_extraction :
    (Universe.init "#01#".toList 2).map
      (fun u => (u.initial_pos, gridGet u.layout 0 0, u.height)) =
    .ok ([(0, 0), (0, 0)], wall, -1) := by rfl

set_option maxRecDepth 4000 in
/-- The `width` attribute of a constructed Universe is the number of
rows and `height` is the number of columns: on a 2-row, 3-column layout
`width = 2` and `height = 3`, while the stored grid has 2 rows of
length 3. -/
theorem universe_width_height_swapped :
    (Universe.init "#0#\n###".toList 1).map
      (fun u => (u.width, u.height, u.layout.length, u.layout.headI.length)) =
    .ok (2, 3, 2, 3) := by rfl

set_option maxRecDepth 4000 in
theorem demoRow0 :
    List.foldl (ipStep (bot_ids 4))
      (List.replicate 4 ((0 : Nat), (0 : Nat)), convert_to_grid demoLayout)
      (rowPairs 18 0) =
    (List.replicate 4 ((0 : Nat), (0 : Nat)), convert_to_grid demoLayout) := by
  rfl

set_option maxRecDepth 4000 in
theorem demoRow1 :
    List.foldl (ipStep (bot_ids 4))
      (List.replicate 4 ((0 : Nat), (0 : Nat)), convert_to_grid demoLayout)
      (rowPairs 18 1) =
    ([(1, 1), (0, 0), (0, 0), (0, 0)], demoGrid1) := by
  rfl

set_option maxRecDepth 4000 in
theorem demoRow2 :
    List.foldl (ipStep (bot_ids 4))
      ([(1, 1), (0, 0), (0, 0), (0, 0)], demoGrid1) (rowPairs 18 2) =
    ([(1, 1), (2, 15), (2, 1), (0, 0)], demoGrid2) := by
  rfl

set_option maxRecDepth 4000 in
theorem demoRow3 :
    List.foldl (ipStep (bot_ids 4))
      ([(1, 1), (2, 15), (2, 1), (0, 0)], demoGrid2) (rowPairs 18 3) =
    ([(1, 1), (2, 15), (2, 1), (3, 15)], demoGrid3) := by
  rfl

set_option maxRecDepth 4000 in
theorem demoRow4 :
    List.foldl (ipStep (bot_ids 4))
      ([(1, 1), (2, 15), (2, 1), (3, 15)], demoGrid3) (rowPairs 18 4) =
    ([(1, 1), (2, 15), (2, 1), (3, 15)], demoGrid3) := by
  rfl

set_option maxRecDepth 4000 in
/-- Extraction on the section-8 layout: bot i's start position is the
cell that held marker i. -/
theorem demo_initial_positions :
    initial_positions (convert_to_grid demoLayout)
      (layout_shape demoLayout) 4 =
    ([(1, 1), (2, 15), (2, 1), (3, 15)], demoGrid3) := by
  have hidx : indexPairs (layout_shape demoLayout).1
      (layout_shape demoLayout).2 =
      rowPairs 18 0 ++ (rowPairs 18 1 ++ (rowPairs 18 2 ++
        (rowPairs 18 3 ++ rowPairs 18 4))) := by rfl
  show List.foldl (ipStep (bot_ids 4))
    (List.replicate 4 ((0 : Nat), (0 : Nat)), convert_to_grid demoLayout)
    (indexPairs (layout_shape demoLayout).1 (layout_shape demoLayout).2) = _
  rw [hidx, List.foldl_append, List.foldl_append, List.foldl_append,
    List.foldl_append, demoRow0, demoRow1, demoRow2, demoRow3, demoRow4]

/-- Counterexample for C7: bot 1's initial position as extracted by
`initial_positions` from the section-8 scenario layout is `(2, 15)` —
row 2, column 15 — and not `(15, 2)`. -/
theorem demo_bot1_pos_cex :
    (initial_positions (convert_to_grid demoLayout)
      (layout_shape demoLayout) 4).1.getD 1 (0, 0) = (2, 15) ∧
    ((2 : Nat), (15 : Nat)) ≠ ((15 : Nat), (2 : Nat)) :=
  ⟨by rw [demo_initial_positions]; rfl, by decide⟩

set_option maxRecDepth 4000 in
/-- C7 (amended): `check_layout` rejects the section-8 scenario layout
(markers appear in first-appearance order 0, 2, 1, 3), but
`initial_positions` on its grid extracts `(2, 15)` as bot 1's initial
position; the west move from `(2, 15)` leads to `(2, 14)` and the north
move from `(2, 14)` leads to `(1, 14)`. -/
theorem demo_bot1_moves :
    (check_layout demoLayout 4).isOk = false ∧
    (initial_positions (convert_to_grid demoLayout)
      (layout_shape demoLayout) 4).1.getD 1 (0, 0) = (2, 15) ∧
    (new_positions (2, 15)).lookup west = some (2, 14) ∧
    (new_positions (2, 14)).lookup north = some (1, 14) :=
  ⟨by rfl, by rw [demo_initial_positions]; rfl, rfl, rfl⟩

/-! ## Splitting and stripping lemmas (towards claim C3) -/
theorem splitLines_ne_nil (l : List Char) : splitLines l ≠ [] := by
  induction l with
  | nil => simp [splitLines]
  | cons c rest ih =>
    simp only [splitLines]
    cases h : splitLines rest with
    | nil => simp
    | cons a as => by_cases hc : c = '\n' <;> simp [hc]

theorem newline_not_mem_splitLines (l : List Char) :
    ∀ s ∈ splitLines l, '\n' ∉ s := by
  induction l with
  | nil => intro s hs; simp [splitLines] at hs; simp [hs]
  | cons c rest ih =>
    intro s hs
    simp only [splitLines] at hs
    cases h : splitLines rest with
    | nil => exact absurd h (splitLines_ne_nil rest)
    | cons a as =>
      simp only [h] at hs
      by_cases hc : c = '\n'
      · rw [if_pos hc] at hs
        rcases List.mem_cons.mp hs with hs | hs
        · simp [hs]
        · exact ih s (h ▸ hs)
      · rw [if_neg hc] at hs
        rcases List.mem_cons.mp hs with hs | hs
        · rw [hs]
          intro hmem
          rcases List.mem_cons.mp hmem with hmem | hmem
          · exact hc hmem.symm
          · exact ih a (h ▸ List.mem_cons_self a as) hmem
        · exact ih s (h ▸ List.mem_cons_of_mem a hs)

theorem splitLines_of_no_newline (l : List Char) (h : '\n' ∉ l) :
    splitLines l = [l] := by
  induction l with
  | nil => rfl
  | cons c rest ih =>
    have hc : c ≠ '\n' := fun hc => h (hc ▸ List.mem_cons_self c rest)
    have hrest : '\n' ∉ rest := fun hm => h (List.mem_cons_of_mem c hm)
    simp only [splitLines, ih hrest]
    rw [if_neg hc]

theorem splitLines_append_newline (x t : List Char) (hx : '\n' ∉ x) :
    splitLines (x ++ '\n' :: t) = x :: splitLines t := by
  induction x with
  | nil =>
    simp only [List.nil_append, splitLines]
    cases h : splitLines t with
    | nil => exact absurd h (splitLines_ne_nil t)
    | cons a as => simp
  | cons c x' ih =>
    have hc : c ≠ '\n' := fun hc => hx (hc ▸ List.mem_cons_self c x')
    have hx' : '\n' ∉ x' := fun hm => hx (List.mem_cons_of_mem c hm)
    simp only [List.cons_append, splitLines]
    show (match splitLines (x' ++ '\n' :: t) with
      | [] => [[c]]
      | l :: ls => if c = '\n' then [] :: l :: ls else (c :: l) :: ls) =
      (c :: x') :: splitLines t
    rw [ih hx']
    show (if c = '\n' then [] :: x' :: splitLines t
      else (c :: x') :: splitLines t) = (c :: x') :: splitLines t
    rw [if_neg hc]

theorem intercalate_newline_cons_cons (x y : List Char)
    (rest : List (List Char)) :
    List.intercalate ['\n'] (x :: y :: rest) =
      x ++ '\n' :: List.intercalate ['\n'] (y :: rest) := by
  simp [List.intercalate, List.intersperse_cons_cons]

theorem splitLines_intercalate (xs : List (List Char)) (hne : xs ≠ [])
    (hx : ∀ s ∈ xs, '\n' ∉ s) :
    splitLines (List.intercalate ['\n'] xs) = xs := by
  induction xs with
  | nil => exact absurd rfl hne
  | cons x rest ih =>
    cases rest with
    | nil =>
      have h1 : List.intercalate ['\n'] [x] = x := by
        simp [List.intercalate]
      rw [h1, splitLines_of_no_newline x (hx x (List.mem_cons_self x []))]
    | cons y rest' =>
      rw [intercalate_newline_cons_cons,
        splitLines_append_newline x _ (hx x (List.mem_cons_self _ _)),
        ih (by simp) (fun s hs => hx s (List.mem_cons_of_mem x hs))]

theorem pyStrip_subset (l : List Char) : ∀ c ∈ pyStrip l, c ∈ l := by
  intro c hc
  unfold pyStrip at hc
  rw [List.mem_reverse] at hc
  have h1 := (List.dropWhile_suffix
    (fun c => pyWhitespace.contains c)).subset hc
  rw [List.mem_reverse] at h1
  exact (List.dropWhile_suffix (fun c => pyWhitespace.contains c)).subset h1

theorem head?_dropWhile_false (p : α → Bool) (l : List α) (x : α)
    (h : (l.dropWhile p).head? = some x) : ¬ p x := by
  have hh := List.head?_dropWhile_not p l
  rw [h] at hh
  simp only at hh
  simp [hh]

theorem dropWhile_eq_self_of_head (p : α → Bool) (l : List α)
    (h : ∀ x, l.head? = some x → ¬ p x) : l.dropWhile p = l := by
  cases l with
  | nil => rfl
  | cons a as =>
    rw [List.dropWhile_cons, if_neg]
    simpa using h a rfl

theorem pyStrip_idem (l : List Char) : pyStrip (pyStrip l) = pyStrip l := by
  by_cases hB : pyStrip l = []
  · rw [hB]; rfl
  · have hBne : ((l.dropWhile (fun c => pyWhitespace.contains c)).reverse.dropWhile
        (fun c => pyWhitespace.contains c)) ≠ [] := by
      intro h
      exact hB (by unfold pyStrip; rw [h]; rfl)
    have hstep1 : (pyStrip l).dropWhile (fun c => pyWhitespace.contains c) =
        pyStrip l := by
      apply dropWhile_eq_self_of_head
      intro x hx
      unfold pyStrip at hx
      rw [List.head?_reverse] at hx
      obtain ⟨t, ht⟩ := List.dropWhile_suffix
        (l := (l.dropWhile (fun c => pyWhitespace.contains c)).reverse)
        (fun c => pyWhitespace.contains c)
      rw [← List.getLast?_append_of_ne_nil t hBne, ht,
        List.getLast?_reverse] at hx
      exact head?_dropWhile_false _ _ _ hx
    have hstep2 : (pyStrip l).reverse.dropWhile
        (fun c => pyWhitespace.contains c) = (pyStrip l).reverse := by
      apply dropWhile_eq_self_of_head
      intro x hx
      rw [show (pyStrip l).reverse =
          (l.dropWhile (fun c => pyWhitespace.contains c)).reverse.dropWhile
            (fun c => pyWhitespace.contains c) from
        by unfold pyStrip; rw [List.reverse_reverse]] at hx
      exact head?_dropWhile_false _ _ _ hx
    show (((pyStrip l).dropWhile (fun c => pyWhitespace.contains c)).reverse.dropWhile
      (fun c => pyWhitespace.contains c)).reverse = pyStrip l
    rw [hstep1, hstep2, List.reverse_reverse]

theorem strFind_newline (l : List Char) (h : '\n' ∈ l) :
    strFind l '\n' = ((splitLines l).headI.length : Int) := by
  induction l with
  | nil => simp at h
  | cons c rest ih =>
    by_cases hc : c = '\n'
    · subst hc
      show (if ('\n' : Char) = '\n' then (0 : Int) else _) = _
      rw [if_pos rfl]
      simp only [splitLines]
      cases h' : splitLines rest with
      | nil => exact absurd h' (splitLines_ne_nil rest)
      | cons a as => simp
    · have hr : '\n' ∈ rest := by
        rcases List.mem_cons.mp h with h | h
        · exact absurd h.symm hc
        · exact h
      have ihr := ih hr
      show (if c = '\n' then (0 : Int)
        else if strFind rest '\n' = -1 then -1 else strFind rest '\n' + 1) = _
      rw [if_neg hc]
      have hne : strFind rest '\n' ≠ -1 := by
        rw [ihr]; intro heq; omega
      rw [if_neg hne, ihr]
      cases h' : splitLines rest with
      | nil => exact absurd h' (splitLines_ne_nil rest)
      | cons a as =>
        simp only [splitLines, h']
        rw [if_neg hc]
        simp only [List.headI, List.length_cons]
        push_cast
        ring

theorem splitLines_strip_layout (s : List Char) :
    splitLines (strip_layout s) = (splitLines s).map pyStrip := by
  unfold strip_layout
  apply splitLines_intercalate
  · intro hmap
    exact splitLines_ne_nil s (List.map_eq_nil_iff.mp hmap)
  · intro t ht
    obtain ⟨u, hu, rfl⟩ := List.mem_map.mp ht
    intro hmem
    exact (newline_not_mem_splitLines s u hu) (pyStrip_subset u '\n' hmem)

theorem convert_to_grid_strip_layout (s : List Char) :
    convert_to_grid (strip_layout s) = splitLines (strip_layout s) := by
  unfold convert_to_grid
  rw [splitLines_strip_layout, List.map_map]
  rw [show (splitLines s).map (pyStrip ∘ pyStrip) = (splitLines s).map pyStrip
    from List.map_congr_left (fun x _ => pyStrip_idem x)]

/-! ## Cell access and the extraction folds (towards claim C3) -/
theorem cell_set_length {α : Type} (g : List (List α)) (h w : Nat) (v : α) :
    (g.set h ((g.getD h []).set w v)).length = g.length := by simp

theorem cell_set_row_same {α : Type} (g : List (List α)) (h w : Nat) (v : α)
    (hh : h < g.length) :
    (g.set h ((g.getD h []).set w v)).getD h [] = (g.getD h []).set w v := by
  rw [List.getD_eq_getElem?_getD, List.getElem?_set_self (by simpa using hh)]
  rfl

theorem cell_set_row_ne {α : Type} (g : List (List α)) (h w : Nat) (v : α)
    (i : Nat) (hi : i ≠ h) :
    (g.set h ((g.getD h []).set w v)).getD i [] = g.getD i [] := by
  rw [List.getD_eq_getElem?_getD, List.getElem?_set_ne (Ne.symm hi),
    ← List.getD_eq_getElem?_getD]

theorem cell_set_rowlen {α : Type} (g : List (List α)) (h w : Nat) (v : α)
    (i : Nat) :
    ((g.set h ((g.getD h []).set w v)).getD i []).length =
      (g.getD i []).length := by
  by_cases hi : i = h
  · subst hi
    by_cases hlen : i < g.length
    · rw [cell_set_row_same g i w v hlen]
      simp
    · rw [List.set_eq_of_length_le (Nat.le_of_not_lt hlen)]
  · rw [cell_set_row_ne g h w v i hi]

theorem cell_set_get_same {α : Type} (g : List (List α)) (h w : Nat)
    (v d : α) (hh : h < g.length) (hw : w < (g.getD h []).length) :
    ((g.set h ((g.getD h []).set w v)).getD h []).getD w d = v := by
  rw [cell_set_row_same g h w v hh, List.getD_eq_getElem?_getD,
    List.getElem?_set_self (by simpa using hw)]
  rfl

theorem cell_set_get_ne {α : Type} (g : List (List α)) (h w h₂ w₂ : Nat)
    (v d : α) (hne : (h₂, w₂) ≠ (h, w)) :
    ((g.set h ((g.getD h []).set w v)).getD h₂ []).getD w₂ d =
      (g.getD h₂ []).getD w₂ d := by
  by_cases hi : h₂ = h
  · subst hi
    have hwne : w₂ ≠ w := fun hww => hne (by rw [hww])
    by_cases hlen : h₂ < g.length
    · rw [cell_set_row_same g h₂ w v hlen, List.getD_eq_getElem?_getD,
        List.getElem?_set_ne (Ne.symm hwne), ← List.getD_eq_getElem?_getD]
    · rw [List.set_eq_of_length_le (Nat.le_of_not_lt hlen)]
  · rw [cell_set_row_ne g h w v h₂ hi]

theorem gridSet_length (g : List (List Char)) (h w : Nat) (v : Char) :
    (gridSet g h w v).length = g.length := cell_set_length g h w v

theorem gridSet_rowlen (g : List (List Char)) (h w : Nat) (v : Char)
    (i : Nat) : ((gridSet g h w v).getD i []).length =
      (g.getD i []).length := cell_set_rowlen g h w v i

theorem gridGet_set_same (g : List (List Char)) (h w : Nat) (v : Char)
    (hh : h < g.length) (hw : w < (g.getD h []).length) :
    gridGet (gridSet g h w v) h w = v := cell_set_get_same g h w v free hh hw

theorem gridGet_set_ne (g : List (List Char)) (h w h₂ w₂ : Nat) (v : Char)
    (hne : (h₂, w₂) ≠ (h, w)) :
    gridGet (gridSet g h w v) h₂ w₂ = gridGet g h₂ w₂ :=
  cell_set_get_ne g h w h₂ w₂ v free hne

theorem boolSet_length (g : List (List Bool)) (h w : Nat) (v : Bool) :
    (boolSet g h w v).length = g.length := cell_set_length g h w v

theorem boolSet_rowlen (g : List (List Bool)) (h w : Nat) (v : Bool)
    (i : Nat) : ((boolSet g h w v).getD i []).length =
      (g.getD i []).length := cell_set_rowlen g h w v i

theorem boolGet_set_same (g : List (List Bool)) (h w : Nat) (v : Bool)
    (hh : h < g.length) (hw : w < (g.getD h []).length) :
    boolGet (boolSet g h w v) h w = v :=
  cell_set_get_same g h w v false hh hw

theorem boolGet_set_ne (g : List (List Bool)) (h w h₂ w₂ : Nat) (v : Bool)
    (hne : (h₂, w₂) ≠ (h, w)) :
    boolGet (boolSet g h w v) h₂ w₂ = boolGet g h₂ w₂ :=
  cell_set_get_ne g h w h₂ w₂ v false hne

theorem mem_indexPairs (hgt : Nat) (wdt : Int) (p : Nat × Nat) :
    p ∈ indexPairs hgt wdt ↔ p.1 < hgt ∧ p.2 < wdt.toNat := by
  unfold indexPairs rowPairs
  rw [List.mem_flatMap]
  constructor
  · rintro ⟨a, ha, hp⟩
    obtain ⟨w, hw, rfl⟩ := List.mem_map.mp hp
    exact ⟨List.mem_range.mp ha, List.mem_range.mp hw⟩
  · rintro ⟨h1, h2⟩
    exact ⟨p.1, List.mem_range.mpr h1,
      List.mem_map.mpr ⟨p.2, List.mem_range.mpr h2, rfl⟩⟩

theorem indexPairs_nodup (hgt : Nat) (wdt : Int) :
    (indexPairs hgt wdt).Nodup := by
  unfold indexPairs
  rw [List.nodup_flatMap]
  refine ⟨?_, ?_⟩
  · intro h _
    unfold rowPairs
    exact (List.nodup_range _).map (fun a b hab => congrArg Prod.snd hab)
  · refine List.Pairwise.imp ?_ (List.nodup_range hgt)
    intro a b hab
    unfold rowPairs Function.onFun
    rw [List.disjoint_left]
    intro p hpa hpb
    obtain ⟨w1, _, rfl⟩ := List.mem_map.mp hpa
    obtain ⟨w2, _, heq⟩ := List.mem_map.mp hpb
    exact hab (congrArg Prod.fst heq).symm

/-- The grid component of the bot-extraction fold: a cell scanned once
is freed exactly when it held a bot marker; nothing else changes. -/
theorem ipFold_grid (botIds : List String) (L : List (Nat × Nat)) :
    ∀ (start : List (Nat × Nat)) (g : List (List Char)),
      L.Nodup →
      (∀ p ∈ L, p.1 < g.length ∧ p.2 < (g.getD p.1 []).length) →
      ∀ h w, h < g.length → w < (g.getD h []).length →
        gridGet (List.foldl (ipStep botIds) (start, g) L).2 h w =
          if (h, w) ∈ L ∧ charStr (gridGet g h w) ∈ botIds then free
          else gridGet g h w := by
  induction L with
  | nil => intro start g _ _ h w _ _; simp
  | cons p ps ih =>
    intro start g hnd hL h w hh hw
    rw [List.foldl_cons]
    have hpin := hL p (List.mem_cons_self p ps)
    have hpnotin : p ∉ ps := (List.nodup_cons.mp hnd).1
    have hndtail : ps.Nodup := (List.nodup_cons.mp hnd).2
    by_cases hc : charStr (gridGet g p.1 p.2) ∈ botIds
    · have hstep : ipStep botIds (start, g) p =
          (start.set (charVal (gridGet g p.1 p.2)) p,
           gridSet g p.1 p.2 free) := by
        unfold ipStep
        rw [if_pos hc]
      rw [hstep]
      have hL' : ∀ q ∈ ps, q.1 < (gridSet g p.1 p.2 free).length ∧
          q.2 < ((gridSet g p.1 p.2 free).getD q.1 []).length := by
        intro q hq
        rw [gridSet_length, gridSet_rowlen]
        exact hL q (List.mem_cons_of_mem p hq)
      rw [ih (start.set (charVal (gridGet g p.1 p.2)) p)
        (gridSet g p.1 p.2 free) hndtail hL' h w
        (by rw [gridSet_length]; exact hh)
        (by rw [gridSet_rowlen]; exact hw)]
      by_cases hp : (h, w) = p
      · have h1 : h = p.1 := congrArg Prod.fst hp
        have h2 : w = p.2 := congrArg Prod.snd hp
        subst h1
        subst h2
        rw [if_neg (fun hand => hpnotin hand.1),
          if_pos ⟨List.mem_cons_self _ _, hc⟩]
        exact gridGet_set_same g p.1 p.2 free hpin.1 hpin.2
      · rw [gridGet_set_ne g p.1 p.2 h w free hp]
        have hmem : ((h, w) ∈ p :: ps) ↔ ((h, w) ∈ ps) := by
          rw [List.mem_cons]
          simp [hp]
        by_cases hcond : (h, w) ∈ ps ∧ charStr (gridGet g h w) ∈ botIds
        · rw [if_pos hcond, if_pos ⟨hmem.mpr hcond.1, hcond.2⟩]
        · rw [if_neg hcond,
            if_neg (fun hand => hcond ⟨hmem.mp hand.1, hand.2⟩)]
    · have hstep : ipStep botIds (start, g) p = (start, g) := by
        unfold ipStep
        rw [if_neg hc]
      rw [hstep,
        ih start g hndtail (fun q hq => hL q (List.mem_cons_of_mem p hq))
          h w hh hw]
      by_cases hp : (h, w) = p
      · have h1 : h = p.1 := congrArg Prod.fst hp
        have h2 : w = p.2 := congrArg Prod.snd hp
        subst h1
        subst h2
        rw [if_neg (fun hand => hpnotin hand.1),
          if_neg (fun hand => hc hand.2)]
      · have hmem : ((h, w) ∈ p :: ps) ↔ ((h, w) ∈ ps) := by
          rw [List.mem_cons]
          simp [hp]
        by_cases hcond : (h, w) ∈ ps ∧ charStr (gridGet g h w) ∈ botIds
        · rw [if_pos hcond, if_pos ⟨hmem.mpr hcond.1, hcond.2⟩]
        · rw [if_neg hcond,
            if_neg (fun hand => hcond ⟨hmem.mp hand.1, hand.2⟩)]

/-- The bot-extraction fold preserves the grid's dimensions. -/
theorem ipFold_dims (botIds : List String) (L : List (Nat × Nat)) :
    ∀ (start : List (Nat × Nat)) (g : List (List Char)),
      (List.foldl (ipStep botIds) (start, g) L).2.length = g.length ∧
      (∀ i, ((List.foldl (ipStep botIds) (start, g) L).2.getD i []).length =
        (g.getD i []).length) := by
  induction L with
  | nil => intro start g; exact ⟨rfl, fun i => rfl⟩
  | cons p ps ih =>
    intro start g
    rw [List.foldl_cons]
    by_cases hc : charStr (gridGet g p.1 p.2) ∈ botIds
    · have hstep : ipStep botIds (start, g) p =
          (start.set (charVal (gridGet g p.1 p.2)) p,
           gridSet g p.1 p.2 free) := by
        unfold ipStep
        rw [if_pos hc]
      rw [hstep]
      obtain ⟨hl, hr⟩ := ih (start.set (charVal (gridGet g p.1 p.2)) p)
        (gridSet g p.1 p.2 free)
      exact ⟨by rw [hl, gridSet_length],
        fun i => by rw [hr i, gridSet_rowlen]⟩
    · have hstep : ipStep botIds (start, g) p = (start, g) := by
        unfold ipStep
        rw [if_neg hc]
      rw [hstep]
      exact ih start g

/-- The food-extraction fold: the food grid becomes true exactly at the
scanned cells that held food, and those cells are freed. -/
theorem efFold_cells (L : List (Nat × Nat)) :
    ∀ (fg : List (List Bool)) (g : List (List Char)),
      L.Nodup →
      (∀ p ∈ L, p.1 < g.length ∧ p.2 < (g.getD p.1 []).length) →
      (∀ p ∈ L, p.1 < fg.length ∧ p.2 < (fg.getD p.1 []).length) →
      ∀ h w, h < g.length → w < (g.getD h []).length →
        (boolGet (List.foldl efStep (fg, g) L).1 h w =
          if (h, w) ∈ L ∧ gridGet g h w = food then true
          else boolGet fg h w) ∧
        (gridGet (List.foldl efStep (fg, g) L).2 h w =
          if (h, w) ∈ L ∧ gridGet g h w = food then free
          else gridGet g h w) := by
  induction L with
  | nil => intro fg g _ _ _ h w _ _; simp
  | cons p ps ih =>
    intro fg g hnd hLg hLf h w hh hw
    rw [List.foldl_cons]
    have hping := hLg p (List.mem_cons_self p ps)
    have hpinf := hLf p (List.mem_cons_self p ps)
    have hpnotin : p ∉ ps := (List.nodup_cons.mp hnd).1
    have hndtail : ps.Nodup := (List.nodup_cons.mp hnd).2
    by_cases hc : gridGet g p.1 p.2 = food
    · have hstep : efStep (fg, g) p =
          (boolSet fg p.1 p.2 true, gridSet g p.1 p.2 free) := by
        unfold efStep
        rw [if_pos hc]
      rw [hstep]
      have hLg' : ∀ q ∈ ps, q.1 < (gridSet g p.1 p.2 free).length ∧
          q.2 < ((gridSet g p.1 p.2 free).getD q.1 []).length := by
        intro q hq
        rw [gridSet_length, gridSet_rowlen]
        exact hLg q (List.mem_cons_of_mem p hq)
      have hLf' : ∀ q ∈ ps, q.1 < (boolSet fg p.1 p.2 true).length ∧
          q.2 < ((boolSet fg p.1 p.2 true).getD q.1 []).length := by
        intro q hq
        rw [boolSet_length, boolSet_rowlen]
        exact hLf q (List.mem_cons_of_mem p hq)
      obtain ⟨ih1, ih2⟩ := ih (boolSet fg p.1 p.2 true)
        (gridSet g p.1 p.2 free) hndtail hLg' hLf' h w
        (by rw [gridSet_length]; exact hh)
        (by rw [gridSet_rowlen]; exact hw)
      by_cases hp : (h, w) = p
      · have h1 : h = p.1 := congrArg Prod.fst hp
        have h2 : w = p.2 := congrArg Prod.snd hp
        subst h1
        subst h2
        constructor
        · rw [ih1, if_neg (fun hand => hpnotin hand.1),
            boolGet_set_same fg p.1 p.2 true hpinf.1 hpinf.2,
            if_pos ⟨List.mem_cons_self _ _, hc⟩]
        · rw [ih2, if_neg (fun hand => hpnotin hand.1),
            gridGet_set_same g p.1 p.2 free hping.1 hping.2,
            if_pos ⟨List.mem_cons_self _ _, hc⟩]
      · have hmem : ((h, w) ∈ p :: ps) ↔ ((h, w) ∈ ps) := by
          rw [List.mem_cons]
          simp [hp]
        have hgg : gridGet (gridSet g p.1 p.2 free) h w = gridGet g h w :=
          gridGet_set_ne g p.1 p.2 h w free hp
        have hbb : boolGet (boolSet fg p.1 p.2 true) h w = boolGet fg h w :=
          boolGet_set_ne fg p.1 p.2 h w true hp
        constructor
        · rw [ih1, hgg, hbb]
          by_cases hcond : (h, w) ∈ ps ∧ gridGet g h w = food
          · rw [if_pos hcond, if_pos ⟨hmem.mpr hcond.1, hcond.2⟩]
          · rw [if_neg hcond,
              if_neg (fun hand => hcond ⟨hmem.mp hand.1, hand.2⟩)]
        · rw [ih2, hgg]
          by_cases hcond : (h, w) ∈ ps ∧ gridGet g h w = food
          · rw [if_pos hcond, if_pos ⟨hmem.mpr hcond.1, hcond.2⟩]
          · rw [if_neg hcond,
              if_neg (fun hand => hcond ⟨hmem.mp hand.1, hand.2⟩)]
    · have hstep : efStep (fg, g) p = (fg, g) := by
        unfold efStep
        rw [if_neg hc]
      rw [hstep]
      obtain ⟨ih1, ih2⟩ := ih fg g hndtail
        (fun q hq => hLg q (List.mem_cons_of_mem p hq))
        (fun q hq => hLf q (List.mem_cons_of_mem p hq)) h w hh hw
      by_cases hp : (h, w) = p
      · have h1 : h = p.1 := congrArg Prod.fst hp
        have h2 : w = p.2 := congrArg Prod.snd hp
        subst h1
        subst h2
        constructor
        · rw [ih1, if_neg (fun hand => hpnotin hand.1),
            if_neg (fun hand => hc hand.2)]
        · rw [ih2, if_neg (fun hand => hpnotin hand.1),
            if_neg (fun hand => hc hand.2)]
      · have hmem : ((h, w) ∈ p :: ps) ↔ ((h, w) ∈ ps) := by
          rw [List.mem_cons]
          simp [hp]
        constructor
        · rw [ih1]
          by_cases hcond : (h, w) ∈ ps ∧ gridGet g h w = food
          · rw [if_pos hcond, if_pos ⟨hmem.mpr hcond.1, hcond.2⟩]
          · rw [if_neg hcond,
              if_neg (fun hand => hcond ⟨hmem.mp hand.1, hand.2⟩)]
        · rw [ih2]
          by_cases hcond : (h, w) ∈ ps ∧ gridGet g h w = food
          · rw [if_pos hcond, if_pos ⟨hmem.mpr hcond.1, hcond.2⟩]
          · rw [if_neg hcond,
              if_neg (fun hand => hcond ⟨hmem.mp hand.1, hand.2⟩)]

/-- The food-extraction fold preserves the layout grid's dimensions. -/
theorem efFold_dims (L : List (Nat × Nat)) :
    ∀ (fg : List (List Bool)) (g : List (List Char)),
      (List.foldl efStep (fg, g) L).2.length = g.length ∧
      (∀ i, ((List.foldl efStep (fg, g) L).2.getD i []).length =
        (g.getD i []).length) := by
  induction L with
  | nil => intro fg g; exact ⟨rfl, fun i => rfl⟩
  | cons p ps ih =>
    intro fg g
    rw [List.foldl_cons]
    by_cases hc : gridGet g p.1 p.2 = food
    · have hstep : efStep (fg, g) p =
          (boolSet fg p.1 p.2 true, gridSet g p.1 p.2 free) := by
        unfold efStep
        rw [if_pos hc]
      rw [hstep]
      obtain ⟨hl, hr⟩ := ih (boolSet fg p.1 p.2 true)
        (gridSet g p.1 p.2 free)
      exact ⟨by rw [hl, gridSet_length],
        fun i => by rw [hr i, gridSet_rowlen]⟩
    · have hstep : efStep (fg, g) p = (fg, g) := by
        unfold efStep
        rw [if_neg hc]
      rw [hstep]
      exact ih fg g

theorem getD_mem {α : Type} (l : List α) (i : Nat) (d : α)
    (h : i < l.length) : l.getD i d ∈ l := by
  rw [List.getD_eq_getElem?_getD, List.getElem?_eq_getElem h]
  exact List.getElem_mem h

theorem mem_of_mem_splitLines (l : List Char) :
    ∀ s ∈ splitLines l, ∀ c ∈ s, c ∈ l := by
  induction l with
  | nil =>
    intro s hs c hc
    simp [splitLines] at hs
    rw [hs] at hc
    simp at hc
  | cons a rest ih =>
    intro s hs c hc
    simp only [splitLines] at hs
    cases h : splitLines rest with
    | nil => exact absurd h (splitLines_ne_nil rest)
    | cons b bs =>
      simp only [h] at hs
      by_cases ha : a = '\n'
      · rw [if_pos ha] at hs
        rcases List.mem_cons.mp hs with hs | hs
        · rw [hs] at hc
          simp at hc
        · exact List.mem_cons_of_mem a (ih s (h ▸ hs) c hc)
      · rw [if_neg ha] at hs
        rcases List.mem_cons.mp hs with hs | hs
        · rw [hs] at hc
          rcases List.mem_cons.mp hc with hc | hc
          · rw [hc]
            exact List.mem_cons_self a rest
          · exact List.mem_cons_of_mem a
              (ih b (h ▸ List.mem_cons_self b bs) c hc)
        · exact List.mem_cons_of_mem a
            (ih s (h ▸ List.mem_cons_of_mem b hs) c hc)

theorem charStr_inj {a b : Char} (h : charStr a = charStr b) : a = b := by
  unfold charStr at h
  simpa using congrArg String.data h

theorem food_not_bot (n : Nat) (h : n ≤ 10) : charStr food ∉ bot_ids n := by
  interval_cases n <;> decide

theorem newline_not_bot (n : Nat) (h : n ≤ 10) :
    charStr '\n' ∉ bot_ids n := by
  interval_cases n <;> decide

theorem replicate_getD {α : Type} (n : Nat) (a : α) (d : α) (i : Nat)
    (h : i < n) : (List.replicate n a).getD i d = a := by
  rw [List.getD_eq_getElem?_getD, List.getElem?_replicate, if_pos h]
  rfl

/-- C3 (amended): for every layout accepted by `check_layout` whose
stripped form holds a newline (at least two rows), the constructed
Universe's stored grid holds only wall, free, harvester and destroyer
characters — bot markers and food have been replaced by free, in that
order, but the harvester/destroyer characters `c`/`o` survive — and
`food_positions` is true exactly at the cells of the checked layout
that held the food character. -/
theorem universe_static_grid_and_food (s : List Char) (nb : Nat)
    (u : Universe) (hnl : '\n' ∈ strip_layout s)
    (hu : Universe.init s nb = .ok u) :
    (∀ row ∈ u.layout, ∀ c ∈ row,
      c = wall ∨ c = free ∨ c = harvester ∨ c = destroyer) ∧
    (∀ h w : Nat,
      h < (convert_to_grid (strip_layout s)).length →
      w < ((convert_to_grid (strip_layout s)).getD h []).length →
      (boolGet u.food_positions h w = true ↔
        gridGet (convert_to_grid (strip_layout s)) h w = food)) := by
  unfold Universe.init at hu
  dsimp only [] at hu
  cases hchk : check_layout (strip_layout s) nb with
  | error e =>
    rw [hchk] at hu
    exact absurd hu (by simp)
  | ok v =>
    cases v
    rw [hchk] at hu
    simp only [] at hu
    cases hu
    obtain ⟨hleg, hmark, hrect⟩ := (check_layout_ok_iff _ _).mp hchk
    have hle10 : nb ≤ 10 := markers_imp_le_ten _ _ hmark
    have hgr : convert_to_grid (strip_layout s) =
        splitLines (strip_layout s) := convert_to_grid_strip_layout s
    set t := strip_layout s with htdef
    set W : Nat := (splitLines t).headI.length with hWdef
    set H : Nat := (splitLines t).length with hHdef
    have hfind : strFind t '\n' = (W : Int) := strFind_newline t hnl
    have hshape : layout_shape t = (H, (W : Int)) := by
      unfold layout_shape
      rw [hfind]
    have hWt : ((W : Int)).toNat = W := Int.toNat_natCast W
    have hdims : ∀ i, i < H → ((splitLines t).getD i []).length = W :=
      fun i hi => hrect _ (getD_mem _ i [] hi)
    have hmem : ∀ h w : Nat, h < H → w < W →
        (h, w) ∈ indexPairs H (W : Int) := by
      intro h w hh hw
      rw [mem_indexPairs]
      exact ⟨hh, by rw [hWt]; exact hw⟩
    have hbounds : ∀ p ∈ indexPairs H (W : Int),
        p.1 < (splitLines t).length ∧
        p.2 < ((splitLines t).getD p.1 []).length := by
      intro p hp
      rw [mem_indexPairs] at hp
      refine ⟨hp.1, ?_⟩
      rw [hdims p.1 hp.1]
      rw [hWt] at hp
      exact hp.2
    have hbase : ∀ h w : Nat, h < H → w < W →
        gridGet (initial_positions (splitLines t)
          (H, (W : Int)) nb).2 h w =
          if charStr (gridGet (splitLines t) h w) ∈ bot_ids nb then free
          else gridGet (splitLines t) h w := by
      intro h w hh hw
      unfold initial_positions
      dsimp only
      rw [ipFold_grid (bot_ids nb) (indexPairs H (W : Int)) _ _
        (indexPairs_nodup H _) hbounds h w hh (by rw [hdims h hh]; exact hw)]
      by_cases hbc : charStr (gridGet (splitLines t) h w) ∈ bot_ids nb
      · rw [if_pos ⟨hmem h w hh hw, hbc⟩, if_pos hbc]
      · rw [if_neg (fun hand => hbc hand.2), if_neg hbc]
    have hipdims := ipFold_dims (bot_ids nb) (indexPairs H (W : Int))
      (List.replicate nb ((0 : Nat), (0 : Nat))) (splitLines t)
    have hip2len : (initial_positions (splitLines t)
        (H, (W : Int)) nb).2.length = H := by
      unfold initial_positions
      dsimp only
      exact hipdims.1
    have hip2row : ∀ i, i < H →
        ((initial_positions (splitLines t) (H, (W : Int)) nb).2.getD
          i []).length = W := by
      intro i hi
      unfold initial_positions
      dsimp only
      rw [hipdims.2 i]
      exact hdims i hi
    have hfgrow : ∀ i, i < H →
        ((List.replicate H (List.replicate ((W : Int)).toNat false)).getD
          i []).length = W := by
      intro i hi
      rw [replicate_getD H _ [] i hi, List.length_replicate, hWt]
    have hefbounds : ∀ p ∈ indexPairs H (W : Int),
        p.1 < (initial_positions (splitLines t) (H, (W : Int)) nb).2.length ∧
        p.2 < ((initial_positions (splitLines t)
          (H, (W : Int)) nb).2.getD p.1 []).length := by
      intro p hp
      rw [mem_indexPairs] at hp
      rw [hip2len, hip2row p.1 hp.1]
      rw [hWt] at hp
      exact hp
    have heffgbounds : ∀ p ∈ indexPairs H (W : Int),
        p.1 < (List.replicate H
          (List.replicate ((W : Int)).toNat false)).length ∧
        p.2 < ((List.replicate H
          (List.replicate ((W : Int)).toNat false)).getD p.1 []).length := by
      intro p hp
      rw [mem_indexPairs] at hp
      rw [List.length_replicate, hfgrow p.1 hp.1]
      rw [hWt] at hp
      exact hp
    have hef := fun (h w : Nat) (hh : h < H) (hw : w < W) =>
      efFold_cells (indexPairs H (W : Int))
        (List.replicate H (List.replicate ((W : Int)).toNat false))
        (initial_positions (splitLines t) (H, (W : Int)) nb).2
        (indexPairs_nodup H _) hefbounds heffgbounds h w
        (by rw [hip2len]; exact hh) (by rw [hip2row h hh]; exact hw)
    have hefdims := efFold_dims (indexPairs H (W : Int))
      (List.replicate H (List.replicate ((W : Int)).toNat false))
      (initial_positions (splitLines t) (H, (W : Int)) nb).2
    -- cell-level description of the final grid and the food grid
    have hgridcell : ∀ h w : Nat, h < H → w < W →
        gridGet (extract_food (initial_positions (splitLines t)
          (H, (W : Int)) nb).2 (H, (W : Int))).2 h w =
          if charStr (gridGet (splitLines t) h w) ∈ bot_ids nb then free
          else if gridGet (splitLines t) h w = food then free
          else gridGet (splitLines t) h w := by
      intro h w hh hw
      unfold extract_food
      dsimp only
      rw [(hef h w hh hw).2]
      by_cases hbc : charStr (gridGet (splitLines t) h w) ∈ bot_ids nb
      · rw [if_pos hbc]
        have hfree : gridGet (initial_positions (splitLines t)
            (H, (W : Int)) nb).2 h w = free := by
          rw [hbase h w hh hw, if_pos hbc]
        rw [if_neg (fun hand => by
          rw [hfree] at hand
          exact absurd hand.2 (by decide)), hfree]
      · rw [if_neg hbc]
        have hsame : gridGet (initial_positions (splitLines t)
            (H, (W : Int)) nb).2 h w = gridGet (splitLines t) h w := by
          rw [hbase h w hh hw, if_neg hbc]
        by_cases hfd : gridGet (splitLines t) h w = food
        · rw [if_pos hfd, if_pos ⟨hmem h w hh hw, by rw [hsame]; exact hfd⟩]
        · rw [if_neg hfd, if_neg (fun hand => hfd (by
            rw [← hsame]; exact hand.2)), hsame]
    have hfoodcell : ∀ h w : Nat, h < H → w < W →
        (boolGet (extract_food (initial_positions (splitLines t)
          (H, (W : Int)) nb).2 (H, (W : Int))).1 h w = true ↔
          gridGet (splitLines t) h w = food) := by
      intro h w hh hw
      unfold extract_food
      dsimp only
      rw [(hef h w hh hw).1]
      have hinit : boolGet (List.replicate H
          (List.replicate ((W : Int)).toNat false)) h w = false := by
        unfold boolGet
        rw [replicate_getD H _ [] h hh, replicate_getD _ false false w
          (by rw [hWt]; exact hw)]
      by_cases hbc : charStr (gridGet (splitLines t) h w) ∈ bot_ids nb
      · have hfree : gridGet (initial_positions (splitLines t)
            (H, (W : Int)) nb).2 h w = free := by
          rw [hbase h w hh hw, if_pos hbc]
        rw [if_neg (fun hand => by
          rw [hfree] at hand
          exact absurd hand.2 (by decide)), hinit]
        constructor
        · intro hfalse
          exact absurd hfalse (by decide)
        · intro hfd
          rw [hfd] at hbc
          exact absurd hbc (food_not_bot nb hle10)
      · have hsame : gridGet (initial_positions (splitLines t)
            (H, (W : Int)) nb).2 h w = gridGet (splitLines t) h w := by
          rw [hbase h w hh hw, if_neg hbc]
        by_cases hfd : gridGet (splitLines t) h w = food
        · rw [if_pos ⟨hmem h w hh hw, by rw [hsame]; exact hfd⟩]
          exact iff_of_true rfl hfd
        · rw [if_neg (fun hand => hfd (by rw [← hsame]; exact hand.2)), hinit]
          exact iff_of_false (by decide) hfd
    -- legality of the cells of the checked grid
    have hcellleg : ∀ h w : Nat, h < H → w < W →
        charStr (gridGet (splitLines t) h w) ∈ legal_strings nb := by
      intro h w hh hw
      apply hleg
      apply mem_of_mem_splitLines t ((splitLines t).getD h [])
        (getD_mem _ h [] hh)
      exact getD_mem _ w free (by rw [hdims h hh]; exact hw)
    have hnotnl : ∀ h w : Nat, h < H → w < W →
        gridGet (splitLines t) h w ≠ '\n' := by
      intro h w hh hw hcontra
      apply newline_not_mem_splitLines t ((splitLines t).getD h [])
        (getD_mem _ h [] hh)
      rw [← hcontra]
      exact getD_mem _ w free (by rw [hdims h hh]; exact hw)
    dsimp only
    rw [hgr, hshape]
    dsimp only
    constructor
    · -- every character of the stored grid is wall, free, harvester or
      -- destroyer
      intro row hrow c hc
      obtain ⟨i, hi, hrowi⟩ := List.getElem_of_mem hrow
      obtain ⟨j, hj, hcj⟩ := List.getElem_of_mem hc
      have hlayout_len : (extract_food (initial_positions (splitLines t)
          (H, (W : Int)) nb).2 (H, (W : Int))).2.length = H := by
        unfold extract_food
        dsimp only
        rw [hefdims.1, hip2len]
      have hiH : i < H := by rw [← hlayout_len]; exact hi
      have hrowD : (extract_food (initial_positions (splitLines t)
          (H, (W : Int)) nb).2 (H, (W : Int))).2.getD i [] = row := by
        rw [List.getD_eq_getElem?_getD, List.getElem?_eq_getElem hi]
        exact hrowi
      have hrowlenW : row.length = W := by
        rw [← hrowD]
        unfold extract_food
        dsimp only
        rw [hefdims.2 i, hip2row i hiH]
      have hjW : j < W := by rw [← hrowlenW]; exact hj
      have hcell : gridGet (extract_food (initial_positions (splitLines t)
          (H, (W : Int)) nb).2 (H, (W : Int))).2 i j = c := by
        unfold gridGet
        rw [hrowD, List.getD_eq_getElem?_getD, List.getElem?_eq_getElem hj]
        exact hcj
      have hthis := hgridcell i j hiH hjW
      rw [hcell] at hthis
      by_cases hbc : charStr (gridGet (splitLines t) i j) ∈ bot_ids nb
      · rw [if_pos hbc] at hthis
        exact Or.inr (Or.inl hthis)
      · rw [if_neg hbc] at hthis
        by_cases hfd : gridGet (splitLines t) i j = food
        · rw [if_pos hfd] at hthis
          exact Or.inr (Or.inl hthis)
        · rw [if_neg hfd] at hthis
          have hl := hcellleg i j hiH hjW
          rw [← hthis] at hl hbc hfd
          unfold legal_strings at hl
          rcases List.mem_append.mp hl with hl | hl
          · rcases List.mem_append.mp hl with hl | hl
            · obtain ⟨y, hy, hcy⟩ := List.mem_map.mp hl
              have hyc : y = c := charStr_inj hcy
              rw [hyc] at hy
              simp only [layout_chars, List.mem_cons] at hy
              rcases hy with hy | hy | hy | hy | hy
              · exact Or.inl hy
              · exact absurd hy hfd
              · exact Or.inr (Or.inr (Or.inl hy))
              · exact Or.inr (Or.inr (Or.inr hy))
              · rcases hy with hy | hy
                · exact Or.inr (Or.inl hy)
                · exact absurd hy (List.not_mem_nil c)
            · exact absurd hl hbc
          · have : charStr c = charStr '\n' := by
              simpa using hl
            have hcnl : c = '\n' := charStr_inj this
            rw [hthis] at hcnl
            exact absurd hcnl (hnotnl i j hiH hjW)
    · -- the food grid is true exactly at the food cells of the checked
      -- layout
      intro h w hh hw
      have hhH : h < H := hh
      have hwW : w < W := by
        rw [hdims h hhH] at hw
        exact hw
      exact hfoodcell h w hhH hwW

set_option maxRecDepth 4000 in
/-- Counterexample for C3: the layout `"#0c#\n#..#"` is accepted with
one bot, but after construction the stored grid still holds the
harvester character `c`, which is neither wall nor free. -/
theorem universe_c_survives_cex :
    (Universe.init "#0c#\n#..#".toList 1).map
      (fun u => gridGet u.layout 0 2) = .ok harvester ∧
    harvester ≠ wall ∧ harvester ≠ free :=
  ⟨by rfl, by decide, by decide⟩

set_option maxRecDepth 4000 in
/-- Witness for C3 at the layout `"#0#\n#.#"` with one bot. -/
theorem universe_static_witness :
    ('\n' ∈ strip_layout "#0#\n#.#".toList) ∧
    (Universe.init "#0#\n#.#".toList 1 = .ok uC3) ∧
    ((∀ row ∈ uC3.layout, ∀ c ∈ row,
        c = wall ∨ c = free ∨ c = harvester ∨ c = destroyer) ∧
      (∀ h w : Nat,
        h < (convert_to_grid (strip_layout "#0#\n#.#".toList)).length →
        w < ((convert_to_grid (strip_layout "#0#\n#.#".toList)).getD
          h []).length →
        (boolGet uC3.food_positions h w = true ↔
          gridGet (convert_to_grid (strip_layout "#0#\n#.#".toList))
            h w = food))) :=
  ⟨by decide, by rfl,
    universe_static_grid_and_food _ 1 uC3 (by decide) (by rfl)⟩

/-- C8: the determinism contract — two runs of `play` with identical
layout, bot roster, round budget, seed and (deterministic) agent
behaviour produce bit-identical snapshot sequences, in particular
identical sequences of bot positions and scores. -/
theorem play_deterministic (layout_str : List Char)
    (number_bots game_time seed : Nat) (agents : Nat → Agent)
    (runA runB : List Snapshot)
    (hA : play layout_str number_bots game_time seed agents = runA)
    (hB : play layout_str number_bots game_time seed agents = runB) :
    runA = runB := by
  rw [← hA, ← hB]

/-- Witness for C8: two runs on a concrete layout, roster, budget and
seed. -/
theorem play_deterministic_witness :
    play "#01#\n#..#".toList 2 2 7 (fun _ _ _ _ => east) =
      play "#01#\n#..#".toList 2 2 7 (fun _ _ _ _ => east) :=
  play_deterministic "#01#\n#..#".toList 2 2 7 (fun _ _ _ _ => east)
    (play "#01#\n#..#".toList 2 2 7 (fun _ _ _ _ => east))
    (play "#01#\n#..#".toList 2 2 7 (fun _ _ _ _ => east)) rfl rfl

end Pelita

